import Mathlib

/-!
Shallow embedding of the seatmint-io on-chain validators
(`src/packages/contracts/`): the minting validators
(`build_minting_policy.py`, `minting_policy.py`), the dedicated
primary-sale validator (`primary_sale.py`, logic identical to
`build_primary_sale.py`), the dedicated resale validator
(`resale.py`, logic identical to `Resale.py`), and the combined
primary-sale/resale validator with its dynamically-typed value
helpers (`PrimarySale.py`).

Conventions: byte strings (`bytes`, `PubKeyHash`, addresses, policy
ids, token names) are `List Nat`; Python `assert` failure, a raised
exception, and a crash all make the validator evaluate to `false`
(on-chain any script failure is a rejection); integer fields are
`Int`.  A multi-asset value as the dedicated validators use it
(`value.get(b"", 0)` read as the base-currency integer,
`value.get(policy_id, {}).get(token_name, 0)` read through nested
maps) is modelled by `ValueS`: the base-currency entry at key `b""`
held as an `Int`, every other policy key holding a token map.  The
combined validator `PrimarySale.py` treats values as dynamically
typed Python objects; those are modelled by the inductive `PyV`.
-/

/-- Byte strings (Python `bytes`): opaque identifiers, token names, keys. -/
abbrev B := List Nat

/-- Python `bytes.startswith`: `startsWith s p = true` iff `p` is an initial
segment of `s`. -/
def startsWith : B → B → Bool
  | _, [] => true
  | [], _ :: _ => false
  | a :: as, p :: ps => a == p && startsWith as ps

/-- Python `x in l` membership test on a list of byte strings. -/
def memB (x : B) : List B → Bool
  | [] => false
  | y :: ys => x == y || memB x ys

/-- Python `dict.get(k)` over an association list: the first binding of `k`. -/
def lookupB {α : Type} (k : B) : List (B × α) → Option α
  | [] => none
  | (k2, v) :: rest => if k == k2 then some v else lookupB k rest

/-- `TicketDatum` (`datums.py` / the `build_*` contract files): per-ticket
state carried with the NFT.  `is_for_resale` is `0` for false, non-zero for
true (Python truthiness). -/
structure TicketDatum where
  event_id : B
  ticket_id : B
  owner : B
  price : Int
  is_for_resale : Int
  royalty_address : B
  royalty_amount : Int
deriving DecidableEq

/-- `EventDatum` (`datums.py` / `build_minting_policy.py`): per-event
metadata read by the minting validators. -/
structure EventDatum where
  organizer : B
  event_id : B
  event_name : B
  total_tickets : Int
  ticket_price : Int
  royalty_percentage : Int
deriving DecidableEq

/-- Multi-asset value as the dedicated validators address it: the Python
dict's `b""` key holds the base-currency (lovelace) integer, every other
policy key holds a token-name map. -/
structure ValueS where
  lovelace : Int
  assets : List (B × List (B × Int))
deriving DecidableEq

/-- `value.get(policy_id, {}).get(token_name, 0)` for a non-base policy key. -/
def ValueS.getTok (v : ValueS) (pid tok : B) : Int :=
  match lookupB pid v.assets with
  | none => 0
  | some tm => (lookupB tok tm).getD 0

/-- A transaction output as the dedicated spending validators read it. -/
structure TxOutS where
  address : B
  value : ValueS
  datum : Option TicketDatum
deriving DecidableEq

/-- The continuing-output loop shared verbatim by `primary_sale.py`,
`resale.py`, `Resale.py` and `build_primary_sale.py`: scan the outputs in
order, and on the first output at the script address whose value holds
exactly quantity 1 of `(pid, tok)`, stop and take its datum (a missing
datum on that output is an assertion failure, i.e. `none`). -/
def findContinuingDatum (outs : List TxOutS) (addr pid tok : B) : Option TicketDatum :=
  match outs with
  | [] => none
  | o :: rest =>
    if o.address == addr && o.value.getTok pid tok == 1 then o.datum
    else findContinuingDatum rest addr pid tok

/-- The payment-scan loop of `primary_sale.py` / `resale.py`: some output
to `addr` carries base currency at least `req`. -/
def payScan (outs : List TxOutS) (addr : B) (req : Int) : Bool :=
  outs.any (fun o => o.address == addr && decide (req ≤ o.value.lovelace))

/-- Python `any(tx_info.signatories)`: some signatory is truthy, i.e. a
non-empty byte string. -/
def anyTruthy (l : List B) : Bool :=
  l.any (fun s => !(s.isEmpty))

/-- The byte literal `b"mint"`. -/
def actMint : B := [109, 105, 110, 116]

/-- The byte literal `b"buy"`. -/
def actBuy : B := [98, 117, 121]

/-- The byte literal `b"list"`. -/
def actList : B := [108, 105, 115, 116]

namespace BuildMintingPolicy

/-- `MintRedeemer` of `build_minting_policy.py`. -/
structure MintRedeemer where
  action : B
  event_id : B
deriving DecidableEq

/-- The redeemer slot of the script context: the `isinstance(redeemer,
MintRedeemer)` check fails on every other redeemer shape. -/
inductive Redeemer where
  | mintR (r : MintRedeemer)
  | otherR
deriving DecidableEq

/-- Script purpose: `purpose.CONSTR_ID == 0` together with
`isinstance(purpose, Minting)` selects the `minting` constructor. -/
inductive Purpose where
  | minting (policy_id : B)
  | spending
deriving DecidableEq

/-- The transaction fields `build_minting_policy.py` reads: the signer set
and the mint map `policy → token name → quantity`. -/
structure TxInfo where
  signatories : List B
  mint : List (B × List (B × Int))
deriving DecidableEq

/-- Script context for `build_minting_policy.py`. -/
structure ScriptContext where
  transaction : TxInfo
  redeemer : Redeemer
  purpose : Purpose
deriving DecidableEq

/-- The per-token loop body: every minted token name starts with the
redeemer's `event_id` and every amount equals exactly 1. -/
def checkTokens (ts : List (B × Int)) (eid : B) : Bool :=
  ts.all (fun p => startsWith p.1 eid && p.2 == 1)

/-- `total_minted`: the running sum of the minted amounts. -/
def totalMinted (ts : List (B × Int)) : Int :=
  ts.foldl (fun acc p => acc + p.2) 0

/-- `validator(event_datum, context)` of `build_minting_policy.py`:
redeemer type and `b"mint"` action, minting purpose, event-id match,
organizer signature, per-token name/amount checks, supply cap
`total_minted <= total_tickets`, and `len(minted) == 1`. -/
def validator (event_datum : EventDatum) (context : ScriptContext) : Bool :=
  match context.redeemer with
  | .otherR => false
  | .mintR red =>
    red.action == actMint &&
    (match context.purpose with
     | .spending => false
     | .minting policy_id =>
       red.event_id == event_datum.event_id &&
       memB event_datum.organizer context.transaction.signatories &&
       (let token_amounts := (lookupB policy_id context.transaction.mint).getD []
        checkTokens token_amounts red.event_id &&
        decide (totalMinted token_amounts ≤ event_datum.total_tickets) &&
        context.transaction.mint.length == 1))

end BuildMintingPolicy

namespace MintingPolicySimple

/-- `MintRedeemer` of `redeemers.py` as `minting_policy.py` reads it
(the `action` string modelled as bytes). -/
structure MintRedeemer where
  action : B
  event_id : B
deriving DecidableEq

/-- The transaction fields `minting_policy.py` reads: the signer set and
the mint map, which this variant iterates directly as
`token name → amount`. -/
structure TxInfo where
  signatories : List B
  mint : List (B × Int)
deriving DecidableEq

/-- Script context for `minting_policy.py`; `event_datum` models
`own_datum_unsafe(context)` (missing or ill-typed datum crashes, i.e.
`none` rejects). -/
structure Ctx where
  redeemer : MintRedeemer
  transaction : TxInfo
  event_datum : Option EventDatum
  own_policy_id : B
deriving DecidableEq

/-- `validator(context)` of `minting_policy.py`: `"mint"` action,
event-id match, organizer signature, and for every minted entry a
name-prefix check and amount exactly 1.  No supply-cap check appears in
this variant. -/
def validator (context : Ctx) : Bool :=
  context.redeemer.action == actMint &&
  (match context.event_datum with
   | none => false
   | some event_datum =>
     context.redeemer.event_id == event_datum.event_id &&
     memB event_datum.organizer context.transaction.signatories &&
     context.transaction.mint.all
       (fun p => startsWith p.1 context.redeemer.event_id && p.2 == 1))

end MintingPolicySimple

/-- Sum of the amounts of a flat mint map, as a claim-side measure of the
total quantity minted by `minting_policy.py`'s transaction. -/
def sumMintFlat (m : List (B × Int)) : Int :=
  m.foldl (fun acc p => acc + p.2) 0

namespace Resale

/-- `ResellRedeemer` (`redeemers.py` / `Resale.py`): action tag and new
listing price. -/
structure ResellRedeemer where
  action : B
  new_price : Int
deriving DecidableEq

/-- The transaction fields the resale validator reads. -/
structure TxInfo where
  outputs : List TxOutS
  signatories : List B
deriving DecidableEq

/-- Script context for `resale.py` / `Resale.py`; `input_datum` models
`own_datum_unsafe(context)`. -/
structure Ctx where
  redeemer : ResellRedeemer
  transaction : TxInfo
  input_datum : Option TicketDatum
  own_address : B
  own_policy_id : B
  own_token_name : B
deriving DecidableEq

/-- `validator(context)` of `resale.py` (identical logic in `Resale.py`):
locate the continuing output holding the NFT, then branch on the redeemer
action.  `list` demands the owner's signature, a resale-flagged output
datum at the redeemer's new price, and the other fields unchanged.
`buy` demands a listed input, any truthy signatory, a cleared resale flag,
a changed owner, the other fields unchanged, and the two payment scans
(seller at least `price`, royalty beneficiary at least `royalty_amount`).
Any other action is rejected. -/
def validator (context : Ctx) : Bool :=
  match context.input_datum with
  | none => false
  | some input_datum =>
    match findContinuingDatum context.transaction.outputs context.own_address
        context.own_policy_id context.own_token_name with
    | none => false
    | some output_datum =>
      if context.redeemer.action == actList then
        memB input_datum.owner context.transaction.signatories &&
        !(output_datum.is_for_resale == 0) &&
        output_datum.price == context.redeemer.new_price &&
        output_datum.owner == input_datum.owner &&
        output_datum.event_id == input_datum.event_id &&
        output_datum.ticket_id == input_datum.ticket_id &&
        output_datum.royalty_address == input_datum.royalty_address &&
        output_datum.royalty_amount == input_datum.royalty_amount
      else if context.redeemer.action == actBuy then
        !(input_datum.is_for_resale == 0) &&
        anyTruthy context.transaction.signatories &&
        output_datum.is_for_resale == 0 &&
        !(output_datum.owner == input_datum.owner) &&
        output_datum.event_id == input_datum.event_id &&
        output_datum.ticket_id == input_datum.ticket_id &&
        output_datum.price == input_datum.price &&
        output_datum.royalty_address == input_datum.royalty_address &&
        output_datum.royalty_amount == input_datum.royalty_amount &&
        payScan context.transaction.outputs input_datum.owner input_datum.price &&
        payScan context.transaction.outputs input_datum.royalty_address
          input_datum.royalty_amount
      else false

end Resale

namespace PrimarySaleV1

/-- `BuyRedeemer` (`redeemers.py`): action tag and buyer identity. -/
structure BuyRedeemer where
  action : B
  buyer : B
deriving DecidableEq

/-- The transaction fields the dedicated primary-sale validator reads. -/
structure TxInfo where
  outputs : List TxOutS
  signatories : List B
deriving DecidableEq

/-- Script context for `primary_sale.py` / `build_primary_sale.py`;
`input_datum` models `own_datum_unsafe(context)`. -/
structure Ctx where
  redeemer : BuyRedeemer
  transaction : TxInfo
  input_datum : Option TicketDatum
  own_address : B
  own_policy_id : B
  own_token_name : B
deriving DecidableEq

/-- `validator(context)` of `primary_sale.py` (identical logic in
`build_primary_sale.py`): `b"buy"` action, non-resale input, buyer
signature, the continuing output holding the NFT, all seven datum fields
checked (`owner` becomes the buyer, everything else unchanged), and one
output paying the current owner at least `price`. -/
def validator (context : Ctx) : Bool :=
  context.redeemer.action == actBuy &&
  (match context.input_datum with
   | none => false
   | some input_datum =>
     input_datum.is_for_resale == 0 &&
     memB context.redeemer.buyer context.transaction.signatories &&
     (match findContinuingDatum context.transaction.outputs context.own_address
         context.own_policy_id context.own_token_name with
      | none => false
      | some output_datum =>
        output_datum.owner == context.redeemer.buyer &&
        output_datum.event_id == input_datum.event_id &&
        output_datum.ticket_id == input_datum.ticket_id &&
        output_datum.price == input_datum.price &&
        output_datum.is_for_resale == input_datum.is_for_resale &&
        output_datum.royalty_address == input_datum.royalty_address &&
        output_datum.royalty_amount == input_datum.royalty_amount &&
        payScan context.transaction.outputs input_datum.owner input_datum.price))

end PrimarySaleV1

/-- A dynamically-typed Python value as `PrimarySale.py`'s helpers receive
it: an integer or a dict from byte-string keys to further such values. -/
inductive PyV where
  | i (n : Int)
  | d (m : List (B × PyV))

namespace PS

/-- `extract_lovelace(value)` of `PrimarySale.py`: a direct integer is
returned as is; on a dict, the entry at key `b""` is returned when it is an
integer, and `int(...)` on a nested dict raises and is caught, giving 0;
any other shape gives 0. -/
def extract_lovelace (v : PyV) : Int :=
  match v with
  | .i n => n
  | .d m =>
    match lookupB [] m with
    | some (.i n) => n
    | some (.d _) => 0
    | none => 0

/-- `find_nft_in_value`'s inner loop over one token map: the first entry
whose amount converts to the integer 1 (a dict amount makes `int(...)`
raise, which the code catches and skips). -/
def findTokenOne (pid : B) : List (B × PyV) → Option (B × B)
  | [] => none
  | (tok, amt) :: rest =>
    match amt with
    | .i n => if n == 1 then some (pid, tok) else findTokenOne pid rest
    | .d _ => findTokenOne pid rest

/-- `find_nft_in_value`'s outer loop over the policy entries: skip the
base-currency key `b""` and any non-dict token map, and return the first
`(policy_id, token_name)` found by `findTokenOne`. -/
def findNftEntries : List (B × PyV) → Option (B × B)
  | [] => none
  | (pid, tm) :: rest =>
    if pid == [] then findNftEntries rest
    else
      match tm with
      | .i _ => findNftEntries rest
      | .d m2 =>
        match findTokenOne pid m2 with
        | some r => some r
        | none => findNftEntries rest

/-- `find_nft_in_value(value)` of `PrimarySale.py`: `none` on a non-dict
value, otherwise the first `(policy_id, token_name)` pair with amount
exactly 1 among the non-base entries. -/
def find_nft_in_value (v : PyV) : Option (B × B) :=
  match v with
  | .i _ => none
  | .d m => findNftEntries m

/-- `BuyRedeemer` of `PrimarySale.py`, with the buyer-declared
`offered_price`. -/
structure BuyRedeemer where
  action : B
  buyer : B
  offered_price : Int
deriving DecidableEq

/-- The redeemer slot: `isinstance(redeemer_obj, BuyRedeemer)` fails on any
other shape. -/
inductive Redeemer where
  | buyR (r : BuyRedeemer)
  | otherR
deriving DecidableEq

/-- The resolved part of a transaction input (`tx_in.resolved`). -/
structure TxInResolved where
  address : B
  value : PyV

/-- A transaction input as `find_own_input` reads it. -/
structure TxIn where
  resolved : TxInResolved

/-- A transaction output as `PrimarySale.py` reads it; `datum` models
`out.datum` followed by `TicketDatum.from_primitive` (missing or ill-formed
is `none`). -/
structure TxOutP where
  address : B
  value : PyV
  datum : Option TicketDatum

/-- The transaction fields `PrimarySale.py` reads. -/
structure TxInfoP where
  inputs : List TxIn
  outputs : List TxOutP
  signatories : List B

/-- Script context for `PrimarySale.py`; `own_datum` models
`own_datum(context)` followed by `TicketDatum.from_primitive`. -/
structure Ctx where
  redeemer : Redeemer
  transaction : TxInfoP
  own_address : B
  own_datum : Option TicketDatum

/-- `find_own_input(tx_inputs, script_address)`: the first input resolved
at the script's own address. -/
def find_own_input (tx_inputs : List TxIn) (script_address : B) : Option TxIn :=
  match tx_inputs with
  | [] => none
  | t :: rest =>
    if t.resolved.address == script_address then some t
    else find_own_input rest script_address

/-- `out.value.get(policy_id, {}).get(token_name, 0)` under dynamic typing:
a non-dict value leaves `token_count = 0`; when the policy entry is an
integer, `.get` on it raises (crash, `none`); a missing policy entry or a
missing token entry defaults to the integer 0. -/
def tokenCountPS (v : PyV) (pid tok : B) : Option PyV :=
  match v with
  | .i _ => some (.i 0)
  | .d m =>
    match lookupB pid m with
    | none => some (.i 0)
    | some (.i _) => none
    | some (.d m2) => some ((lookupB tok m2).getD (.i 0))

/-- Python `token_count == 1` on a dynamic value: true only for the
integer 1 (a dict never equals an int). -/
def isOne (v : PyV) : Bool :=
  match v with
  | .i n => n == 1
  | .d _ => false

/-- The continuing-output loop of `PrimarySale.py`: scan outputs in order;
a crash while reading a token count aborts the script (`none`); on the
first output at the script address holding exactly 1 of the NFT, take its
datum (`none` when the datum is missing, which the code asserts against). -/
def findContinuingPS : List TxOutP → B → B → B → Option TicketDatum
  | [], _, _, _ => none
  | o :: rest, ownAddr, pid, tok =>
    match tokenCountPS o.value pid tok with
    | none => none
    | some tc =>
      if isOne tc && o.address == ownAddr then o.datum
      else findContinuingPS rest ownAddr pid tok

/-- `extract_lovelace(out.value.get(b"", 0))` as the payment loops compute
it: `.get` on an integer value raises (crash, `none`); on a dict the entry
at `b""` (defaulting to the integer 0) goes through `extract_lovelace`. -/
def lovOfPS (o : TxOutP) : Option Int :=
  match o.value with
  | .i _ => none
  | .d m => some (extract_lovelace ((lookupB [] m).getD (.i 0)))

/-- The primary-path payment loop of `PrimarySale.py`: outputs to the
owner are examined in order, a crash aborts (`none`), and the loop breaks
as soon as one carries at least `req`. -/
def scanPayPS : List TxOutP → B → Int → Option Bool
  | [], _, _ => some false
  | o :: rest, addr, req =>
    if o.address == addr then
      match lovOfPS o with
      | none => none
      | some amt =>
        if decide (req ≤ amt) then some true else scanPayPS rest addr req
    else scanPayPS rest addr req

/-- The resale-path payment loop of `PrimarySale.py`: a single pass over
all outputs with two accumulating flags and no break; each output matching
the owner address is checked against `minOwner`, and each output matching
the royalty address against `royNeeded`; a crash while reading either
aborts (`none`). -/
def scanResalePS : List TxOutP → B → B → Int → Int → Bool → Bool →
    Option (Bool × Bool)
  | [], _, _, _, _, o, r => some (o, r)
  | out :: rest, ownerA, royA, minOwner, royNeeded, o, r =>
    match
      (if out.address == ownerA then
        match lovOfPS out with
        | none => none
        | some amt => some (o || decide (minOwner ≤ amt))
      else some o) with
    | none => none
    | some o2 =>
      match
        (if out.address == royA then
          match lovOfPS out with
          | none => none
          | some amt => some (r || decide (royNeeded ≤ amt))
        else some r) with
      | none => none
      | some r2 => scanResalePS rest ownerA royA minOwner royNeeded o2 r2

/-- `validator(context)` of `PrimarySale.py`: redeemer shape and `b"buy"`
action, buyer signature, the input datum, the script's own input and the
NFT inside its value, the continuing output's datum, the four datum checks
(`owner` becomes the buyer, `event_id`/`ticket_id` unchanged,
`is_for_resale` cleared to 0 — `price`, `royalty_address` and
`royalty_amount` are not checked), then the payment branch: on a non-resale
input one output to the owner at least `price`; on a resale input the
two-flag scan against `offered_price - royalty_amount` for the owner and
`royalty_amount` for the royalty address. -/
def validator (context : Ctx) : Bool :=
  match context.redeemer with
  | .otherR => false
  | .buyR red =>
    red.action == actBuy &&
    memB red.buyer context.transaction.signatories &&
    (match context.own_datum with
     | none => false
     | some input_datum =>
       match find_own_input context.transaction.inputs context.own_address with
       | none => false
       | some own_input =>
         match find_nft_in_value own_input.resolved.value with
         | none => false
         | some (pid, tok) =>
           match findContinuingPS context.transaction.outputs
               context.own_address pid tok with
           | none => false
           | some output_datum =>
             output_datum.owner == red.buyer &&
             output_datum.event_id == input_datum.event_id &&
             output_datum.ticket_id == input_datum.ticket_id &&
             output_datum.is_for_resale == 0 &&
             (if input_datum.is_for_resale == 0 then
               match scanPayPS context.transaction.outputs input_datum.owner
                   input_datum.price with
               | none => false
               | some b => b
             else
               match scanResalePS context.transaction.outputs input_datum.owner
                   input_datum.royalty_address
                   (red.offered_price - input_datum.royalty_amount)
                   input_datum.royalty_amount false false with
               | none => false
               | some (o, r) => o && r))

end PS

/-- A concrete event: organizer `[1]`, event id `[9, 9]`, supply cap 2. -/
def edA : EventDatum := ⟨[1], [9, 9], [], 2, 5, 500⟩

/-- A concrete mint accepted by `build_minting_policy.py`: two tokens named
under the event id, each quantity 1, organizer signed, one policy minted. -/
def mintCtxA : BuildMintingPolicy.ScriptContext :=
  ⟨⟨[[1]], [([50], [([9, 9, 1], 1), ([9, 9, 2], 1)])]⟩,
   .mintR ⟨actMint, [9, 9]⟩, .minting [50]⟩

/-- A concrete event with supply cap 1. -/
def edB : EventDatum := ⟨[1], [9, 9], [], 1, 5, 500⟩

/-- A concrete mint of two quantity-1 tokens presented to
`minting_policy.py` against an event whose cap is 1. -/
def mintCtxB : MintingPolicySimple.Ctx :=
  ⟨⟨actMint, [9, 9]⟩, ⟨[[1]], [([9, 9, 1], 1), ([9, 9, 2], 1)]⟩,
   some edB, [50]⟩

/-- A concrete in-cap mint accepted by `minting_policy.py`. -/
def mintCtxC : MintingPolicySimple.Ctx :=
  ⟨⟨actMint, [9, 9]⟩, ⟨[[1]], [([9, 9, 1], 1)]⟩, some edA, [50]⟩

/-- A listed ticket: owner `[2]`, price 100, royalty 10 to `[4]`. -/
def tdListed : TicketDatum := ⟨[9, 9], [7], [2], 100, 1, [4], 10⟩

/-- A structured value holding exactly 1 of the NFT `([50], [9, 9, 1])`. -/
def nftVal : ValueS := ⟨0, [([50], [([9, 9, 1], 1)])]⟩

/-- A structured value holding only base currency. -/
def adaVal (n : Int) : ValueS := ⟨n, []⟩

/-- A concrete resale buy accepted by `resale.py`: buyer `[3]` signed, the
continuing output re-owns the ticket to `[3]`, the seller receives 100 and
the royalty beneficiary 10. -/
def resaleBuyCtx : Resale.Ctx :=
  ⟨⟨actBuy, 0⟩,
   ⟨[⟨[100], nftVal, some ⟨[9, 9], [7], [3], 100, 0, [4], 10⟩⟩,
     ⟨[2], adaVal 100, none⟩,
     ⟨[4], adaVal 10, none⟩],
    [[3]]⟩,
   some tdListed, [100], [50], [9, 9, 1]⟩

/-- A concrete resale buy in which nobody but the seller `[2]` signed and
the continuing output hands the ticket to `[5]`. -/
def c6ctx : Resale.Ctx :=
  ⟨⟨actBuy, 0⟩,
   ⟨[⟨[100], nftVal, some ⟨[9, 9], [7], [5], 100, 0, [4], 10⟩⟩,
     ⟨[2], adaVal 100, none⟩,
     ⟨[4], adaVal 10, none⟩],
    [[2]]⟩,
   some tdListed, [100], [50], [9, 9, 1]⟩

/-- A primary-sale input datum: owner `[2]`, price 1000000, not listed. -/
def psIn : TicketDatum := ⟨[9, 9], [7], [2], 1000000, 0, [4], 10⟩

/-- The same ticket re-owned to the buyer `[3]`, all other fields kept. -/
def psOutDatum : TicketDatum := ⟨[9, 9], [7], [3], 1000000, 0, [4], 10⟩

/-- A dedicated-validator context accepted by `primary_sale.py`: buyer `[3]`
signed, continuing output carries the NFT and the updated datum, and the
owner `[2]` is paid exactly the price. -/
def v1CtxOk : PrimarySaleV1.Ctx :=
  ⟨⟨actBuy, [3]⟩,
   ⟨[⟨[100], nftVal, some psOutDatum⟩, ⟨[2], adaVal 1000000, none⟩], [[3]]⟩,
   some psIn, [100], [50], [9, 9, 1]⟩

/-- The same transaction with the payment output one lovelace short. -/
def v1CtxLow : PrimarySaleV1.Ctx :=
  ⟨⟨actBuy, [3]⟩,
   ⟨[⟨[100], nftVal, some psOutDatum⟩, ⟨[2], adaVal 999999, none⟩], [[3]]⟩,
   some psIn, [100], [50], [9, 9, 1]⟩

/-- A self-purchase presented to `primary_sale.py`: the redeemer's buyer is
the current owner `[2]`, who signed, and the continuing datum is unchanged. -/
def v1CtxSelf : PrimarySaleV1.Ctx :=
  ⟨⟨actBuy, [2]⟩,
   ⟨[⟨[100], nftVal, some psIn⟩, ⟨[2], adaVal 1000000, none⟩], [[2]]⟩,
   some psIn, [100], [50], [9, 9, 1]⟩

/-- A dynamic value holding exactly 1 of the NFT `([50], [9, 9, 1])`. -/
def nftPy : PyV := .d [([50], .d [([9, 9, 1], .i 1)])]

/-- A dynamic value holding only base currency. -/
def adaPy (n : Int) : PyV := .d [([], .i n)]

/-- A primary sale accepted by `PrimarySale.py`: buyer `[3]` signed, the
continuing output carries the NFT with the re-owned datum, and the owner
`[2]` is paid the price. -/
def psPrimaryCtx : PS.Ctx :=
  ⟨.buyR ⟨actBuy, [3], 0⟩,
   ⟨[⟨⟨[100], nftPy⟩⟩],
    [⟨[100], nftPy, some psOutDatum⟩, ⟨[2], adaPy 1000000, none⟩],
    [[3]]⟩,
   [100], some psIn⟩

/-- The continuing datum of `c4ctx`: owner updated to `[3]` but `price`
zeroed, `royalty_address` redirected to `[6]` and `royalty_amount` zeroed. -/
def c4OutDatum : TicketDatum := ⟨[9, 9], [7], [3], 0, 0, [6], 0⟩

/-- The same accepted primary sale as `psPrimaryCtx` except that the
continuing datum rewrites the price and royalty fields. -/
def c4ctx : PS.Ctx :=
  ⟨.buyR ⟨actBuy, [3], 0⟩,
   ⟨[⟨⟨[100], nftPy⟩⟩],
    [⟨[100], nftPy, some c4OutDatum⟩, ⟨[2], adaPy 1000000, none⟩],
    [[3]]⟩,
   [100], some psIn⟩

/-- A self-purchase presented to `PrimarySale.py`: buyer is the current
owner `[2]`, who signed; the continuing datum is unchanged. -/
def psCtxSelf : PS.Ctx :=
  ⟨.buyR ⟨actBuy, [2], 0⟩,
   ⟨[⟨⟨[100], nftPy⟩⟩],
    [⟨[100], nftPy, some psIn⟩, ⟨[2], adaPy 1000000, none⟩],
    [[2]]⟩,
   [100], some psIn⟩

/-- A listed ticket for the combined validator's resale path: listed price
1000000, royalty 100000 to `[4]`. -/
def c7In : TicketDatum := ⟨[9, 9], [7], [2], 1000000, 1, [4], 100000⟩

/-- The continuing datum for the resale purchase: owner `[3]`, flag cleared. -/
def c7Out : TicketDatum := ⟨[9, 9], [7], [3], 1000000, 0, [4], 100000⟩

/-- A resale buy accepted by `PrimarySale.py` though the buyer declares
`offered_price = 500000`, half the listed price: the seller receives
400000 = 500000 - 100000 and the royalty beneficiary 100000. -/
def psResaleCtx : PS.Ctx :=
  ⟨.buyR ⟨actBuy, [3], 500000⟩,
   ⟨[⟨⟨[100], nftPy⟩⟩],
    [⟨[100], nftPy, some c7Out⟩, ⟨[2], adaPy 400000, none⟩,
     ⟨[4], adaPy 100000, none⟩],
    [[3]]⟩,
   [100], some c7In⟩

/-- The same transaction with the seller's output one lovelace short of
`offered_price - royalty_amount`. -/
def psResaleCtxLow : PS.Ctx :=
  ⟨.buyR ⟨actBuy, [3], 500000⟩,
   ⟨[⟨⟨[100], nftPy⟩⟩],
    [⟨[100], nftPy, some c7Out⟩, ⟨[2], adaPy 399999, none⟩,
     ⟨[4], adaPy 100000, none⟩],
    [[3]]⟩,
   [100], some c7In⟩

/-- The number of token entries in one token map whose amount is the
integer 1 — the claim-side count of `find_nft_in_value`'s inner
candidates. -/
def countTokenOnes (l : List (B × PyV)) : Nat :=
  l.foldl
    (fun a q =>
      match q.2 with
      | .i n => if n == 1 then a + 1 else a
      | .d _ => a) 0

/-- The number of non-base asset classes with quantity exactly 1 in a
dynamic value bag — the claim-side count of `find_nft_in_value`'s
candidates. -/
def nftCandidateCount (v : PyV) : Nat :=
  match v with
  | .i _ => 0
  | .d m =>
    m.foldl
      (fun a p =>
        if p.1 == [] then a
        else
          match p.2 with
          | .i _ => a
          | .d m2 => a + countTokenOnes m2) 0

/-- Whether at least one non-base asset class with quantity exactly 1
exists in a dynamic value bag (a single `any`-scan, stated independently
of `find_nft_in_value`'s first-return recursion). -/
def hasNftCandidate (v : PyV) : Bool :=
  match v with
  | .i _ => false
  | .d m =>
    m.any (fun p =>
      !(p.1 == []) &&
      (match p.2 with
       | .i _ => false
       | .d m2 =>
         m2.any (fun q =>
           match q.2 with
           | .i n => n == 1
           | .d _ => false)))

/-- A well-formed bag holding two distinct non-base asset classes, each of
quantity exactly 1. -/
def c9bag : PyV := .d [([1], .d [([10], .i 1)]), ([2], .d [([20], .i 1)])]

/-- Claim C1 (counterexample): `minting_policy.py`'s validator accepts a
concrete mint transaction whose minted quantities sum to 2 while the
event's `total_tickets` is 1 — no supply-cap check exists in that variant. -/
theorem simpleMint_cap_counterexample :
    MintingPolicySimple.validator mintCtxB = true ∧
    mintCtxB.event_datum = some edB ∧
    edB.total_tickets = 1 ∧
    sumMintFlat mintCtxB.transaction.mint = 2 := by decide

/-- Claim C1 (amended): for every minting transaction accepted by
`build_minting_policy.py`'s validator, the total of the minted quantities
under the script's own policy does not exceed `event_datum.total_tickets`
(the `minting_policy.py` variant enforces no such cap). -/
theorem buildMint_cap (ed : EventDatum) (ctx : BuildMintingPolicy.ScriptContext)
    (pid : B) (hp : ctx.purpose = .minting pid)
    (hv : BuildMintingPolicy.validator ed ctx = true) :
    BuildMintingPolicy.totalMinted ((lookupB pid ctx.transaction.mint).getD []) ≤
      ed.total_tickets := by
  unfold BuildMintingPolicy.validator at hv
  cases hred : ctx.redeemer with
  | otherR => rw [hred] at hv; simp at hv
  | mintR red =>
    rw [hred, hp] at hv
    simp only [Bool.and_eq_true, decide_eq_true_eq] at hv
    obtain ⟨-, -, ⟨-, htot⟩, -⟩ := hv
    exact htot

/-- Claim C1 (witness): the cap theorem applied to the concrete accepted
two-ticket mint against the cap-2 event. -/
theorem buildMint_cap_witness :
    BuildMintingPolicy.validator edA mintCtxA = true ∧
    BuildMintingPolicy.totalMinted
      ((lookupB [50] mintCtxA.transaction.mint).getD []) ≤ edA.total_tickets :=
  ⟨by decide, buildMint_cap edA mintCtxA [50] rfl (by decide)⟩

/-- Claim C5: in every accepted mint, of `build_minting_policy.py` as of
`minting_policy.py`, every minted token name starts with the redeemer's
`event_id` and every minted quantity equals exactly 1. -/
theorem mint_token_shape :
    (∀ (ed : EventDatum) (ctx : BuildMintingPolicy.ScriptContext) (pid : B)
      (red : BuildMintingPolicy.MintRedeemer),
      ctx.purpose = .minting pid → ctx.redeemer = .mintR red →
      BuildMintingPolicy.validator ed ctx = true →
      ∀ p ∈ (lookupB pid ctx.transaction.mint).getD [],
        startsWith p.1 red.event_id = true ∧ p.2 = 1) ∧
    (∀ ctx : MintingPolicySimple.Ctx,
      MintingPolicySimple.validator ctx = true →
      ∀ p ∈ ctx.transaction.mint,
        startsWith p.1 ctx.redeemer.event_id = true ∧ p.2 = 1) := by
  constructor
  · intro ed ctx pid red hp hred hv
    unfold BuildMintingPolicy.validator at hv
    rw [hred, hp] at hv
    simp only [Bool.and_eq_true, decide_eq_true_eq] at hv
    obtain ⟨-, -, ⟨hchk, -⟩, -⟩ := hv
    intro p hpmem
    unfold BuildMintingPolicy.checkTokens at hchk
    rw [List.all_eq_true] at hchk
    have := hchk p hpmem
    simp only [Bool.and_eq_true, beq_iff_eq] at this
    exact this
  · intro ctx hv
    unfold MintingPolicySimple.validator at hv
    cases hd : ctx.event_datum with
    | none => rw [hd] at hv; simp at hv
    | some ed =>
      rw [hd] at hv
      simp only [Bool.and_eq_true] at hv
      obtain ⟨-, -, hall⟩ := hv
      intro p hpmem
      rw [List.all_eq_true] at hall
      have := hall p hpmem
      simp only [Bool.and_eq_true, beq_iff_eq] at this
      exact this

/-- Claim C5 (witness): the token-shape theorem applied to the concrete
accepted two-ticket mint. -/
theorem mint_token_shape_witness :
    BuildMintingPolicy.validator edA mintCtxA = true ∧
    (∀ p ∈ (lookupB [50] mintCtxA.transaction.mint).getD [],
      startsWith p.1 [9, 9] = true ∧ p.2 = 1) :=
  ⟨by decide,
   mint_token_shape.1 edA mintCtxA [50] ⟨actMint, [9, 9]⟩ rfl rfl (by decide)⟩

/-- Claim C8: every mint accepted by either minting validator has the
redeemer's `event_id` equal to `event_datum.event_id` and the organizer
among the transaction's signatories. -/
theorem mint_auth_checks :
    (∀ (ed : EventDatum) (ctx : BuildMintingPolicy.ScriptContext)
      (red : BuildMintingPolicy.MintRedeemer),
      ctx.redeemer = .mintR red →
      BuildMintingPolicy.validator ed ctx = true →
      red.event_id = ed.event_id ∧
      memB ed.organizer ctx.transaction.signatories = true) ∧
    (∀ (ctx : MintingPolicySimple.Ctx) (ed : EventDatum),
      ctx.event_datum = some ed →
      MintingPolicySimple.validator ctx = true →
      ctx.redeemer.event_id = ed.event_id ∧
      memB ed.organizer ctx.transaction.signatories = true) := by
  constructor
  · intro ed ctx red hred hv
    unfold BuildMintingPolicy.validator at hv
    rw [hred] at hv
    cases hp : ctx.purpose with
    | spending => rw [hp] at hv; simp at hv
    | minting pid =>
      rw [hp] at hv
      simp only [Bool.and_eq_true, beq_iff_eq] at hv
      obtain ⟨-, ⟨heid, hmem⟩, -⟩ := hv
      exact ⟨heid, hmem⟩
  · intro ctx ed hd hv
    unfold MintingPolicySimple.validator at hv
    rw [hd] at hv
    simp only [Bool.and_eq_true, beq_iff_eq] at hv
    obtain ⟨-, ⟨heid, hmem⟩, -⟩ := hv
    exact ⟨heid, hmem⟩

/-- Claim C8 (witness): the authorisation theorem applied to the concrete
accepted mints of both variants. -/
theorem mint_auth_checks_witness :
    (([9, 9] : B) = edA.event_id ∧
      memB edA.organizer mintCtxA.transaction.signatories = true) ∧
    (mintCtxC.redeemer.event_id = edA.event_id ∧
      memB edA.organizer mintCtxC.transaction.signatories = true) :=
  ⟨mint_auth_checks.1 edA mintCtxA ⟨actMint, [9, 9]⟩ rfl (by decide),
   mint_auth_checks.2 mintCtxC edA rfl (by decide)⟩

/-- A successful payment scan exhibits a qualifying output. -/
theorem payScan_exists {outs : List TxOutS} {addr : B} {req : Int}
    (h : payScan outs addr req = true) :
    ∃ o ∈ outs, o.address = addr ∧ req ≤ o.value.lovelace := by
  unfold payScan at h
  rw [List.any_eq_true] at h
  obtain ⟨o, ho, hp⟩ := h
  rw [Bool.and_eq_true] at hp
  exact ⟨o, ho, by simpa using hp.1, by simpa using hp.2⟩

/-- What acceptance of a `buy` action by the dedicated resale validator
implies: a listed input, a truthy signer, a continuing datum with the
resale flag cleared, a changed owner and the other fields preserved, and
the two successful payment scans. -/
theorem resale_buy_spec {ctx : Resale.Ctx} {input_datum : TicketDatum}
    (hd : ctx.input_datum = some input_datum)
    (ha : ctx.redeemer.action = actBuy)
    (hv : Resale.validator ctx = true) :
    input_datum.is_for_resale ≠ 0 ∧
    anyTruthy ctx.transaction.signatories = true ∧
    ∃ od, findContinuingDatum ctx.transaction.outputs ctx.own_address
        ctx.own_policy_id ctx.own_token_name = some od ∧
      od.is_for_resale = 0 ∧ od.owner ≠ input_datum.owner ∧
      od.event_id = input_datum.event_id ∧
      od.ticket_id = input_datum.ticket_id ∧
      od.price = input_datum.price ∧
      od.royalty_address = input_datum.royalty_address ∧
      od.royalty_amount = input_datum.royalty_amount ∧
      payScan ctx.transaction.outputs input_datum.owner input_datum.price = true ∧
      payScan ctx.transaction.outputs input_datum.royalty_address
        input_datum.royalty_amount = true := by
  unfold Resale.validator at hv
  rw [hd, ha] at hv
  cases hfc : findContinuingDatum ctx.transaction.outputs ctx.own_address
      ctx.own_policy_id ctx.own_token_name with
  | none => rw [hfc] at hv; simp at hv
  | some od =>
    rw [hfc] at hv
    have hne : (actBuy == actList) = false := by decide
    have heq : (actBuy == actBuy) = true := by decide
    rw [hne, heq] at hv
    simp at hv
    obtain ⟨⟨⟨⟨⟨⟨⟨⟨⟨⟨h1, h2⟩, h3⟩, h4⟩, h5⟩, h6⟩, h7⟩, h8⟩, h9⟩, h10⟩, h11⟩ := hv
    exact ⟨h1, h2, od, rfl, h3, h4, h5, h6, h7, h8, h9, h10, h11⟩

/-- What acceptance by the dedicated primary-sale validator implies: the
`buy` action, a non-resale input, a signing buyer, a continuing datum with
the owner updated to the buyer and all other fields preserved, and a
successful payment scan for the current owner at `price`. -/
theorem v1_spec {ctx : PrimarySaleV1.Ctx} {input_datum : TicketDatum}
    (hd : ctx.input_datum = some input_datum)
    (hv : PrimarySaleV1.validator ctx = true) :
    ctx.redeemer.action = actBuy ∧ input_datum.is_for_resale = 0 ∧
    memB ctx.redeemer.buyer ctx.transaction.signatories = true ∧
    (∃ od, findContinuingDatum ctx.transaction.outputs ctx.own_address
        ctx.own_policy_id ctx.own_token_name = some od ∧
      od.owner = ctx.redeemer.buyer ∧
      od.event_id = input_datum.event_id ∧
      od.ticket_id = input_datum.ticket_id ∧
      od.price = input_datum.price ∧
      od.is_for_resale = 0 ∧
      od.royalty_address = input_datum.royalty_address ∧
      od.royalty_amount = input_datum.royalty_amount) ∧
    payScan ctx.transaction.outputs input_datum.owner input_datum.price = true := by
  unfold PrimarySaleV1.validator at hv
  rw [hd] at hv
  cases hfc : findContinuingDatum ctx.transaction.outputs ctx.own_address
      ctx.own_policy_id ctx.own_token_name with
  | none => rw [hfc] at hv; simp at hv
  | some od =>
    rw [hfc] at hv
    simp at hv
    obtain ⟨hact, ⟨hres, hmem⟩,
      ⟨⟨⟨⟨⟨⟨h1, h2⟩, h3⟩, h4⟩, h5⟩, h6⟩, h7⟩, hpay⟩ := hv
    exact ⟨hact, hres, hmem, ⟨od, rfl, h1, h2, h3, h4, h5.trans hres, h6, h7⟩, hpay⟩

/-- Claim C2: every `buy` transaction accepted by the dedicated resale
validator has some output paying the seller (`input_datum.owner`) at least
`input_datum.price` in base currency, and some output paying
`input_datum.royalty_address` at least `input_datum.royalty_amount`;
either scan failing means rejection (contrapositive of acceptance). -/
theorem resale_buy_payment_split (ctx : Resale.Ctx) (input_datum : TicketDatum)
    (hd : ctx.input_datum = some input_datum)
    (ha : ctx.redeemer.action = actBuy)
    (hv : Resale.validator ctx = true) :
    (∃ o ∈ ctx.transaction.outputs, o.address = input_datum.owner ∧
      input_datum.price ≤ o.value.lovelace) ∧
    (∃ o ∈ ctx.transaction.outputs, o.address = input_datum.royalty_address ∧
      input_datum.royalty_amount ≤ o.value.lovelace) := by
  obtain ⟨-, -, od, -, -, -, -, -, -, -, -, hps, hpr⟩ := resale_buy_spec hd ha hv
  exact ⟨payScan_exists hps, payScan_exists hpr⟩

/-- Claim C2 (witness): the payment-split theorem applied to the concrete
accepted resale buy. -/
theorem resale_buy_payment_split_witness :
    (∃ o ∈ resaleBuyCtx.transaction.outputs, o.address = tdListed.owner ∧
      tdListed.price ≤ o.value.lovelace) ∧
    (∃ o ∈ resaleBuyCtx.transaction.outputs,
      o.address = tdListed.royalty_address ∧
      tdListed.royalty_amount ≤ o.value.lovelace) :=
  resale_buy_payment_split resaleBuyCtx tdListed rfl rfl (by decide)

/-- Claim C6 (counterexample): the dedicated resale validator accepts a
concrete `buy` transaction whose continuing output hands the ticket to
`[5]` while `[5]` is not among the signatories (only the seller `[2]`
signed), with both payment conditions satisfied. -/
theorem resale_buyer_signer_counterexample :
    Resale.validator c6ctx = true ∧
    c6ctx.redeemer.action = actBuy ∧
    findContinuingDatum c6ctx.transaction.outputs c6ctx.own_address
      c6ctx.own_policy_id c6ctx.own_token_name =
      some ⟨[9, 9], [7], [5], 100, 0, [4], 10⟩ ∧
    memB [5] c6ctx.transaction.signatories = false := by decide

/-- What acceptance by the combined validator `PrimarySale.py` implies:
the `buy` action and a signing buyer, the own input and the NFT found in
its value, a continuing datum re-owned to the buyer with `event_id` and
`ticket_id` preserved and the resale flag cleared, and either the primary
payment scan succeeding at `input_datum.price` or the resale two-flag scan
succeeding at `offered_price - royalty_amount` and `royalty_amount`.
Note the absence of any check on the continuing datum's `price`,
`royalty_address` or `royalty_amount`. -/
theorem ps_spec {ctx : PS.Ctx} {red : PS.BuyRedeemer}
    (hred : ctx.redeemer = .buyR red)
    (hv : PS.validator ctx = true) :
    red.action = actBuy ∧
    memB red.buyer ctx.transaction.signatories = true ∧
    ∃ input_datum, ctx.own_datum = some input_datum ∧
    ∃ oi, PS.find_own_input ctx.transaction.inputs ctx.own_address = some oi ∧
    ∃ pid, ∃ tok, PS.find_nft_in_value oi.resolved.value = some (pid, tok) ∧
    ∃ od, PS.findContinuingPS ctx.transaction.outputs ctx.own_address pid tok =
        some od ∧
      od.owner = red.buyer ∧
      od.event_id = input_datum.event_id ∧
      od.ticket_id = input_datum.ticket_id ∧
      od.is_for_resale = 0 ∧
      ((input_datum.is_for_resale = 0 ∧
        PS.scanPayPS ctx.transaction.outputs input_datum.owner
          input_datum.price = some true) ∨
       (input_datum.is_for_resale ≠ 0 ∧
        PS.scanResalePS ctx.transaction.outputs input_datum.owner
          input_datum.royalty_address
          (red.offered_price - input_datum.royalty_amount)
          input_datum.royalty_amount false false = some (true, true))) := by
  unfold PS.validator at hv
  rw [hred] at hv
  cases hd : ctx.own_datum with
  | none => rw [hd] at hv; simp at hv
  | some input_datum =>
  rw [hd] at hv
  dsimp only at hv
  cases hoi : PS.find_own_input ctx.transaction.inputs ctx.own_address with
  | none => rw [hoi] at hv; simp at hv
  | some oi =>
  rw [hoi] at hv
  dsimp only at hv
  cases hnft : PS.find_nft_in_value oi.resolved.value with
  | none => rw [hnft] at hv; simp at hv
  | some pr =>
  rw [hnft] at hv
  obtain ⟨pid, tok⟩ := pr
  dsimp only at hv
  cases hfc : PS.findContinuingPS ctx.transaction.outputs ctx.own_address pid tok with
  | none => rw [hfc] at hv; simp at hv
  | some od =>
  rw [hfc] at hv
  simp at hv
  obtain ⟨⟨hact, hmem⟩, ⟨⟨⟨h1, h2⟩, h3⟩, h4⟩, hif⟩ := hv
  refine ⟨hact, hmem, input_datum, rfl, oi, rfl, pid, tok, hnft, od, hfc,
    h1, h2, h3, h4, ?_⟩
  by_cases hifr : input_datum.is_for_resale = 0
  · rw [if_pos hifr] at hif
    left
    refine ⟨hifr, ?_⟩
    cases hscan : PS.scanPayPS ctx.transaction.outputs input_datum.owner
        input_datum.price with
    | none => rw [hscan] at hif; simp at hif
    | some b =>
      rw [hscan] at hif
      cases b with
      | false => simp at hif
      | true => rfl
  · rw [if_neg hifr] at hif
    right
    refine ⟨hifr, ?_⟩
    cases hscan : PS.scanResalePS ctx.transaction.outputs input_datum.owner
        input_datum.royalty_address (red.offered_price - input_datum.royalty_amount)
        input_datum.royalty_amount false false with
    | none => rw [hscan] at hif; simp at hif
    | some pr2 =>
      obtain ⟨o, r⟩ := pr2
      rw [hscan] at hif
      simp at hif
      obtain ⟨ho, hr⟩ := hif
      subst ho
      subst hr
      rfl

/-- A successful primary-path payment scan of `PrimarySale.py` exhibits a
qualifying output. -/
theorem scanPayPS_true {addr : B} {req : Int} :
    ∀ {outs : List PS.TxOutP}, PS.scanPayPS outs addr req = some true →
    ∃ o ∈ outs, o.address = addr ∧ ∃ amt, PS.lovOfPS o = some amt ∧ req ≤ amt := by
  intro outs
  induction outs with
  | nil => intro h; simp [PS.scanPayPS] at h
  | cons o rest ih =>
    intro h
    simp only [PS.scanPayPS] at h
    by_cases hadr : (o.address == addr) = true
    · rw [if_pos hadr] at h
      cases hlov : PS.lovOfPS o with
      | none => rw [hlov] at h; simp at h
      | some amt =>
        rw [hlov] at h
        dsimp only at h
        by_cases hle : req ≤ amt
        · exact ⟨o, List.mem_cons_self o rest, by simpa using hadr, amt, hlov, hle⟩
        · rw [if_neg (by simp only [decide_eq_true_eq]; exact hle)] at h
          obtain ⟨o2, ho2, h3⟩ := ih h
          exact ⟨o2, List.mem_cons_of_mem o ho2, h3⟩
    · rw [if_neg hadr] at h
      obtain ⟨o2, ho2, h3⟩ := ih h
      exact ⟨o2, List.mem_cons_of_mem o ho2, h3⟩
/-- What the resale-path two-flag scan of `PrimarySale.py` guarantees for
each flag it reports as set: the flag was set on entry or some output at
the corresponding address carries enough base currency. -/
theorem scanResalePS_some {ownerA royA : B} {mo rn : Int} :
    ∀ {outs : List PS.TxOutP} {o0 r0 : Bool} {res : Bool × Bool},
    PS.scanResalePS outs ownerA royA mo rn o0 r0 = some res →
    (res.1 = true → o0 = true ∨
      ∃ o ∈ outs, o.address = ownerA ∧ ∃ amt, PS.lovOfPS o = some amt ∧ mo ≤ amt) ∧
    (res.2 = true → r0 = true ∨
      ∃ o ∈ outs, o.address = royA ∧ ∃ amt, PS.lovOfPS o = some amt ∧ rn ≤ amt) := by
  intro outs
  induction outs with
  | nil =>
    intro o0 r0 res h
    simp only [PS.scanResalePS, Option.some.injEq] at h
    subst h
    exact ⟨fun h1 => Or.inl h1, fun h2 => Or.inl h2⟩
  | cons out rest ih =>
    intro o0 r0 res h
    simp only [PS.scanResalePS] at h
    by_cases hadr : (out.address == ownerA) = true
    · rw [if_pos hadr] at h
      cases hlov : PS.lovOfPS out with
      | none => rw [hlov] at h; simp at h
      | some amt =>
        rw [hlov] at h
        dsimp only at h
        by_cases hroy : (out.address == royA) = true
        · rw [if_pos hroy] at h
          dsimp only at h
          obtain ⟨iho, ihr⟩ := ih h
          constructor
          · intro h1
            rcases iho h1 with ho2 | ⟨o2, ho2, h3⟩
            · rcases Bool.or_eq_true_iff.mp ho2 with h4 | h4
              · exact Or.inl h4
              · exact Or.inr ⟨out, List.mem_cons_self out rest,
                  by simpa using hadr, amt, hlov, by simpa using h4⟩
            · exact Or.inr ⟨o2, List.mem_cons_of_mem out ho2, h3⟩
          · intro h2
            rcases ihr h2 with hr2 | ⟨o2, ho2, h3⟩
            · rcases Bool.or_eq_true_iff.mp hr2 with h4 | h4
              · exact Or.inl h4
              · exact Or.inr ⟨out, List.mem_cons_self out rest,
                  by simpa using hroy, amt, hlov, by simpa using h4⟩
            · exact Or.inr ⟨o2, List.mem_cons_of_mem out ho2, h3⟩
        · rw [if_neg hroy] at h
          obtain ⟨iho, ihr⟩ := ih h
          constructor
          · intro h1
            rcases iho h1 with ho2 | ⟨o2, ho2, h3⟩
            · rcases Bool.or_eq_true_iff.mp ho2 with h4 | h4
              · exact Or.inl h4
              · exact Or.inr ⟨out, List.mem_cons_self out rest,
                  by simpa using hadr, amt, hlov, by simpa using h4⟩
            · exact Or.inr ⟨o2, List.mem_cons_of_mem out ho2, h3⟩
          · intro h2
            rcases ihr h2 with hr2 | ⟨o2, ho2, h3⟩
            · exact Or.inl hr2
            · exact Or.inr ⟨o2, List.mem_cons_of_mem out ho2, h3⟩
    · rw [if_neg hadr] at h
      by_cases hroy : (out.address == royA) = true
      · rw [if_pos hroy] at h
        cases hlov : PS.lovOfPS out with
        | none => rw [hlov] at h; simp at h
        | some amt =>
          rw [hlov] at h
          dsimp only at h
          obtain ⟨iho, ihr⟩ := ih h
          constructor
          · intro h1
            rcases iho h1 with ho2 | ⟨o2, ho2, h3⟩
            · exact Or.inl ho2
            · exact Or.inr ⟨o2, List.mem_cons_of_mem out ho2, h3⟩
          · intro h2
            rcases ihr h2 with hr2 | ⟨o2, ho2, h3⟩
            · rcases Bool.or_eq_true_iff.mp hr2 with h4 | h4
              · exact Or.inl h4
              · exact Or.inr ⟨out, List.mem_cons_self out rest,
                  by simpa using hroy, amt, hlov, by simpa using h4⟩
            · exact Or.inr ⟨o2, List.mem_cons_of_mem out ho2, h3⟩
      · rw [if_neg hroy] at h
        obtain ⟨iho, ihr⟩ := ih h
        constructor
        · intro h1
          rcases iho h1 with ho2 | ⟨o2, ho2, h3⟩
          · exact Or.inl ho2
          · exact Or.inr ⟨o2, List.mem_cons_of_mem out ho2, h3⟩
        · intro h2
          rcases ihr h2 with hr2 | ⟨o2, ho2, h3⟩
          · exact Or.inl hr2
          · exact Or.inr ⟨o2, List.mem_cons_of_mem out ho2, h3⟩
/-- Claim C3: every transaction accepted by a primary-sale validator
(`primary_sale.py`, and `PrimarySale.py` on a non-resale input) has some
output paying the current owner recorded in the input datum at least
`input_datum.price`; concretely, at price 1000000 a 999999 payment is
rejected and a 1000000 payment accepted. -/
theorem primary_sale_payment :
    (∀ (ctx : PrimarySaleV1.Ctx) (input_datum : TicketDatum),
      ctx.input_datum = some input_datum →
      PrimarySaleV1.validator ctx = true →
      ∃ o ∈ ctx.transaction.outputs, o.address = input_datum.owner ∧
        input_datum.price ≤ o.value.lovelace) ∧
    (∀ (ctx : PS.Ctx) (input_datum : TicketDatum),
      ctx.own_datum = some input_datum → input_datum.is_for_resale = 0 →
      PS.validator ctx = true →
      ∃ o ∈ ctx.transaction.outputs, o.address = input_datum.owner ∧
        ∃ amt, PS.lovOfPS o = some amt ∧ input_datum.price ≤ amt) ∧
    psIn.price = 1000000 ∧
    PrimarySaleV1.validator v1CtxLow = false ∧
    (∃ o ∈ v1CtxLow.transaction.outputs, o.address = psIn.owner ∧
      o.value.lovelace = 999999) ∧
    PrimarySaleV1.validator v1CtxOk = true ∧
    (∃ o ∈ v1CtxOk.transaction.outputs, o.address = psIn.owner ∧
      o.value.lovelace = 1000000) := by
  refine ⟨?_, ?_, by decide, by decide, by decide, by decide, by decide⟩
  · intro ctx input_datum hd hv
    obtain ⟨-, -, -, -, hpay⟩ := v1_spec hd hv
    exact payScan_exists hpay
  · intro ctx input_datum hd hres hv
    cases hred : ctx.redeemer with
    | otherR =>
      unfold PS.validator at hv
      rw [hred] at hv
      simp at hv
    | buyR red =>
      obtain ⟨-, -, idat, hd2, oi2, hoi2, pid2, tok2, hnft2, od2, hfc2,
        -, -, -, -, hsplit⟩ := ps_spec hred hv
      rw [hd] at hd2
      obtain rfl : input_datum = idat := Option.some.inj hd2
      rcases hsplit with ⟨-, hscan⟩ | ⟨hne, -⟩
      · exact scanPayPS_true hscan
      · exact absurd hres hne
/-- Claim C4 (amended): `primary_sale.py` enforces the full frame on the
continuing datum (owner becomes the buyer, `event_id`, `ticket_id`,
`price`, `royalty_address`, `royalty_amount` unchanged, resale flag 0);
the `PrimarySale.py` variant enforces only owner, `event_id`, `ticket_id`
and the cleared resale flag. -/
theorem primary_frame_amended :
    (∀ (ctx : PrimarySaleV1.Ctx) (input_datum od : TicketDatum),
      ctx.input_datum = some input_datum →
      findContinuingDatum ctx.transaction.outputs ctx.own_address
        ctx.own_policy_id ctx.own_token_name = some od →
      PrimarySaleV1.validator ctx = true →
      od.owner = ctx.redeemer.buyer ∧ od.event_id = input_datum.event_id ∧
      od.ticket_id = input_datum.ticket_id ∧ od.price = input_datum.price ∧
      od.royalty_address = input_datum.royalty_address ∧
      od.royalty_amount = input_datum.royalty_amount ∧ od.is_for_resale = 0) ∧
    (∀ (ctx : PS.Ctx) (red : PS.BuyRedeemer) (input_datum od : TicketDatum)
      (oi : PS.TxIn) (pid tok : B),
      ctx.redeemer = .buyR red →
      ctx.own_datum = some input_datum →
      PS.find_own_input ctx.transaction.inputs ctx.own_address = some oi →
      PS.find_nft_in_value oi.resolved.value = some (pid, tok) →
      PS.findContinuingPS ctx.transaction.outputs ctx.own_address pid tok =
        some od →
      PS.validator ctx = true →
      od.owner = red.buyer ∧ od.event_id = input_datum.event_id ∧
      od.ticket_id = input_datum.ticket_id ∧ od.is_for_resale = 0) := by
  constructor
  · intro ctx input_datum od hd hfc hv
    obtain ⟨-, -, -, ⟨od2, hfc2, p1, p2, p3, p4, p5, p6, p7⟩, -⟩ := v1_spec hd hv
    obtain rfl : od = od2 := Option.some.inj (hfc.symm.trans hfc2)
    exact ⟨p1, p2, p3, p4, p6, p7, p5⟩
  · intro ctx red input_datum od oi pid tok hred hd hoi hnft hfc hv
    obtain ⟨-, -, idat, hd2, oi2, hoi2, pid2, tok2, hnft2, od2, hfc2,
      h1, h2, h3, h4, -⟩ := ps_spec hred hv
    rw [hd] at hd2
    obtain rfl : input_datum = idat := Option.some.inj hd2
    obtain rfl : oi = oi2 := Option.some.inj (hoi.symm.trans hoi2)
    obtain ⟨hp, ht⟩ : pid = pid2 ∧ tok = tok2 := by
      have := hnft.symm.trans hnft2
      exact ⟨congrArg Prod.fst (Option.some.inj this),
        congrArg Prod.snd (Option.some.inj this)⟩
    subst hp
    subst ht
    obtain rfl : od = od2 := Option.some.inj (hfc.symm.trans hfc2)
    exact ⟨h1, h2, h3, h4⟩
/-- Claim C6 (amended): the combined `PrimarySale.py` validator makes the
continuing output's owner (the buyer) a signer in every accepted
transaction; the dedicated resale validator only requires some truthy
signatory and a changed owner, so its buyer need not sign. -/
theorem resale_buyer_signer_amended :
    (∀ (ctx : PS.Ctx) (red : PS.BuyRedeemer) (od : TicketDatum)
      (oi : PS.TxIn) (pid tok : B),
      ctx.redeemer = .buyR red →
      PS.find_own_input ctx.transaction.inputs ctx.own_address = some oi →
      PS.find_nft_in_value oi.resolved.value = some (pid, tok) →
      PS.findContinuingPS ctx.transaction.outputs ctx.own_address pid tok =
        some od →
      PS.validator ctx = true →
      memB od.owner ctx.transaction.signatories = true) ∧
    (∀ (ctx : Resale.Ctx) (input_datum od : TicketDatum),
      ctx.input_datum = some input_datum →
      findContinuingDatum ctx.transaction.outputs ctx.own_address
        ctx.own_policy_id ctx.own_token_name = some od →
      ctx.redeemer.action = actBuy →
      Resale.validator ctx = true →
      anyTruthy ctx.transaction.signatories = true ∧
      od.owner ≠ input_datum.owner) := by
  constructor
  · intro ctx red od oi pid tok hred hoi hnft hfc hv
    obtain ⟨-, hmem, idat, -, oi2, hoi2, pid2, tok2, hnft2, od2, hfc2,
      h1, -, -, -, -⟩ := ps_spec hred hv
    obtain rfl : oi = oi2 := Option.some.inj (hoi.symm.trans hoi2)
    obtain ⟨hp, ht⟩ : pid = pid2 ∧ tok = tok2 := by
      have := hnft.symm.trans hnft2
      exact ⟨congrArg Prod.fst (Option.some.inj this),
        congrArg Prod.snd (Option.some.inj this)⟩
    subst hp
    subst ht
    obtain rfl : od = od2 := Option.some.inj (hfc.symm.trans hfc2)
    rw [h1]
    exact hmem
  · intro ctx input_datum od hd hfc ha hv
    obtain ⟨-, htru, od2, hfc2, -, hown, -⟩ := resale_buy_spec hd ha hv
    obtain rfl : od = od2 := Option.some.inj (hfc.symm.trans hfc2)
    exact ⟨htru, hown⟩

/-- Claim C7: in `PrimarySale.py`'s resale path the seller's minimum
payment is `offered_price - royalty_amount`, computed from the
buyer-declared `offered_price`; no comparison against the recorded
`input_datum.price` occurs, so a buy at half the listed price is accepted
as long as the split is respected, and one lovelace below the split
minimum is rejected. -/
theorem combined_resale_offered_split :
    (∀ (ctx : PS.Ctx) (red : PS.BuyRedeemer) (input_datum : TicketDatum),
      ctx.redeemer = .buyR red →
      ctx.own_datum = some input_datum →
      input_datum.is_for_resale ≠ 0 →
      PS.validator ctx = true →
      (∃ o ∈ ctx.transaction.outputs, o.address = input_datum.owner ∧
        ∃ amt, PS.lovOfPS o = some amt ∧
          red.offered_price - input_datum.royalty_amount ≤ amt) ∧
      (∃ o ∈ ctx.transaction.outputs, o.address = input_datum.royalty_address ∧
        ∃ amt, PS.lovOfPS o = some amt ∧ input_datum.royalty_amount ≤ amt)) ∧
    PS.validator psResaleCtx = true ∧
    c7In.price = 1000000 ∧
    psResaleCtx.own_datum = some c7In ∧
    (∀ o ∈ psResaleCtx.transaction.outputs, o.address = c7In.owner →
      PS.lovOfPS o = some 400000) ∧
    PS.validator psResaleCtxLow = false := by
  refine ⟨?_, by decide, by decide, by decide, by decide, by decide⟩
  intro ctx red input_datum hred hd hres hv
  obtain ⟨-, -, idat, hd2, oi2, -, pid2, tok2, -, od2, -, -, -, -, -,
    hsplit⟩ := ps_spec hred hv
  rw [hd] at hd2
  obtain rfl : input_datum = idat := Option.some.inj hd2
  rcases hsplit with ⟨hz, -⟩ | ⟨-, hscan⟩
  · exact absurd hz hres
  · obtain ⟨iho, ihr⟩ := scanResalePS_some hscan
    constructor
    · rcases iho rfl with hfalse | hex
      · simp at hfalse
      · exact hex
    · rcases ihr rfl with hfalse | hex
      · simp at hfalse
      · exact hex

/-- Claim C10: both primary-sale validators accept a concrete transaction
in which the redeemer's buyer equals the input datum's current owner, who
signed and paid their own identity — neither requires the owner to
change. -/
theorem self_purchase_possible :
    PrimarySaleV1.validator v1CtxSelf = true ∧
    v1CtxSelf.redeemer.buyer = psIn.owner ∧
    v1CtxSelf.input_datum = some psIn ∧
    PS.validator psCtxSelf = true ∧
    psCtxSelf.redeemer = .buyR ⟨actBuy, psIn.owner, 0⟩ ∧
    psCtxSelf.own_datum = some psIn := by decide

/-- Claim C3 (witness): the payment theorem applied to the concrete
accepted contexts of both primary-sale validators. -/
theorem primary_sale_payment_witness :
    (∃ o ∈ v1CtxOk.transaction.outputs, o.address = psIn.owner ∧
      psIn.price ≤ o.value.lovelace) ∧
    (∃ o ∈ psPrimaryCtx.transaction.outputs, o.address = psIn.owner ∧
      ∃ amt, PS.lovOfPS o = some amt ∧ psIn.price ≤ amt) :=
  ⟨primary_sale_payment.1 v1CtxOk psIn rfl (by decide),
   primary_sale_payment.2.1 psPrimaryCtx psIn rfl rfl (by decide)⟩

/-- Claim C4 (counterexample): `PrimarySale.py` accepts a concrete primary
sale whose continuing datum rewrites `price`, `royalty_address` and
`royalty_amount` relative to the input datum. -/
theorem primary_frame_counterexample :
    PS.validator c4ctx = true ∧
    c4ctx.own_datum = some psIn ∧
    PS.findContinuingPS c4ctx.transaction.outputs c4ctx.own_address
      [50] [9, 9, 1] = some c4OutDatum ∧
    c4OutDatum.owner = [3] ∧
    c4OutDatum.price ≠ psIn.price ∧
    c4OutDatum.royalty_address ≠ psIn.royalty_address ∧
    c4OutDatum.royalty_amount ≠ psIn.royalty_amount := by decide

/-- Claim C4 (witness): the amended frame theorem applied to the concrete
accepted contexts of both validators. -/
theorem primary_frame_amended_witness :
    (psOutDatum.owner = v1CtxOk.redeemer.buyer ∧
      psOutDatum.event_id = psIn.event_id ∧
      psOutDatum.ticket_id = psIn.ticket_id ∧
      psOutDatum.price = psIn.price ∧
      psOutDatum.royalty_address = psIn.royalty_address ∧
      psOutDatum.royalty_amount = psIn.royalty_amount ∧
      psOutDatum.is_for_resale = 0) ∧
    (psOutDatum.owner = ([3] : B) ∧
      psOutDatum.event_id = psIn.event_id ∧
      psOutDatum.ticket_id = psIn.ticket_id ∧
      psOutDatum.is_for_resale = 0) :=
  ⟨primary_frame_amended.1 v1CtxOk psIn psOutDatum rfl (by decide) (by decide),
   primary_frame_amended.2 psPrimaryCtx ⟨actBuy, [3], 0⟩ psIn psOutDatum
     ⟨⟨[100], nftPy⟩⟩ [50] [9, 9, 1] rfl rfl rfl rfl (by decide) (by decide)⟩

/-- Claim C6 (witness): the amended theorem applied to the concrete
accepted contexts of the combined and the dedicated resale validators. -/
theorem resale_buyer_signer_amended_witness :
    memB psOutDatum.owner psPrimaryCtx.transaction.signatories = true ∧
    (anyTruthy resaleBuyCtx.transaction.signatories = true ∧
      (⟨[9, 9], [7], [3], 100, 0, [4], 10⟩ : TicketDatum).owner ≠
        tdListed.owner) :=
  ⟨resale_buyer_signer_amended.1 psPrimaryCtx ⟨actBuy, [3], 0⟩ psOutDatum
     ⟨⟨[100], nftPy⟩⟩ [50] [9, 9, 1] rfl rfl rfl (by decide) (by decide),
   resale_buyer_signer_amended.2 resaleBuyCtx tdListed
     ⟨[9, 9], [7], [3], 100, 0, [4], 10⟩ rfl (by decide) rfl (by decide)⟩

/-- Claim C7 (witness): the split theorem applied to the concrete accepted
resale buy with `offered_price = 500000`. -/
theorem combined_resale_offered_split_witness :
    (∃ o ∈ psResaleCtx.transaction.outputs, o.address = c7In.owner ∧
      ∃ amt, PS.lovOfPS o = some amt ∧
        (500000 : Int) - c7In.royalty_amount ≤ amt) ∧
    (∃ o ∈ psResaleCtx.transaction.outputs,
      o.address = c7In.royalty_address ∧
      ∃ amt, PS.lovOfPS o = some amt ∧ c7In.royalty_amount ≤ amt) :=
  combined_resale_offered_split.1 psResaleCtx ⟨actBuy, [3], 500000⟩ c7In
    rfl rfl (by decide) (by decide)

/-- The inner token scan succeeds exactly when some amount is the
integer 1. -/
theorem findTokenOne_isSome (pid : B) (l : List (B × PyV)) :
    (PS.findTokenOne pid l).isSome =
      l.any (fun q =>
        match q.2 with
        | .i n => n == 1
        | .d _ => false) := by
  induction l with
  | nil => rfl
  | cons q rest ih =>
    obtain ⟨tok, amt⟩ := q
    cases amt with
    | i n =>
      simp only [PS.findTokenOne, List.any_cons]
      by_cases h : (n == 1) = true
      · simp [h]
      · simp [h, ih]
    | d m2 => simp [PS.findTokenOne, List.any_cons, ih]

/-- The outer policy scan succeeds exactly when some non-base dict entry
holds an amount-1 token. -/
theorem findNftEntries_isSome (l : List (B × PyV)) :
    (PS.findNftEntries l).isSome =
      l.any (fun p =>
        !(p.1 == []) &&
        (match p.2 with
         | .i _ => false
         | .d m2 =>
           m2.any (fun q =>
             match q.2 with
             | .i n => n == 1
             | .d _ => false))) := by
  induction l with
  | nil => rfl
  | cons p rest ih =>
    obtain ⟨pid, tm⟩ := p
    by_cases hp : (pid == []) = true
    · simp only [PS.findNftEntries, List.any_cons, hp, if_pos]
      simp [hp, ih]
    · cases tm with
      | i n =>
        simp only [PS.findNftEntries, List.any_cons]
        rw [if_neg hp]
        simp [hp, ih]
      | d m2 =>
        simp only [PS.findNftEntries, List.any_cons]
        rw [if_neg hp]
        cases hfind : PS.findTokenOne pid m2 with
        | some r =>
          have := findTokenOne_isSome pid m2
          rw [hfind] at this
          simp [hp, ← this]
        | none =>
          have := findTokenOne_isSome pid m2
          rw [hfind] at this
          simp [hp, ← this, ih]

/-- Claim C9 (amended): `find_nft_in_value` returns `none` exactly when no
non-base asset class with quantity 1 exists (or the bag is not a dict);
when one or more exist it returns the first — it never fails on
ambiguity. -/
theorem find_nft_characterization (v : PyV) :
    (PS.find_nft_in_value v).isSome = hasNftCandidate v := by
  cases v with
  | i n => rfl
  | d m => exact findNftEntries_isSome m

/-- Claim C9 (counterexample): on a bag holding exactly two quantity-1
asset classes, `find_nft_in_value` returns the first pair instead of
`none`. -/
theorem find_nft_counterexample :
    nftCandidateCount c9bag = 2 ∧
    PS.find_nft_in_value c9bag = some ([1], [10]) := by decide
